import Mathlib

/-!
# Verification of the `my-search-buddy` finder-core engine

A shallow embedding of the indexing and query subsystem of the
`finder-core` Rust crate (files `scanner.rs`, `indexer.rs`, `schema.rs`,
`query.rs`, `ffi.rs`), together with theorems settling the specification
claims about it.

The embedding models:
* `FileMeta` and its `identity` key (`scanner.rs`);
* the tantivy-backed incremental indexer as an explicit state
  (`committed` documents visible to the reader, plus the `pending`
  writer operations `delete_term` / `add_document`) with
  `add_or_update_file` and `commit` (`indexer.rs`);
* the query pipeline of `search` (`query.rs`): trimming, clause
  construction with the name-field boost and the anchored-regex boost
  clause, glob post-filtering, and the final NaN-tolerant sort.  The
  external tantivy parser / regex compiler / searcher and the globset
  compiler are abstracted as an environment of pure functions;
* the C-ABI marshaling layer (`ffi.rs`): `fc_should_reindex`,
  the hit-array construction of `fc_search`, and `fc_free_results`.

Machine integers (`u64`, `i64`) are modelled as `Nat` / `Int` (no
arithmetic in the relevant code comes near overflow); `f32` scores are
modelled by `Score`, a rational value or NaN, which carries exactly the
order information `partial_cmp` uses.
-/

namespace FinderCore

/-! ## scanner.rs : `FileMeta` and `identity` -/

/-- `FileMeta` from `scanner.rs`: `path`, `name`, optional `ext`,
`modified_at : i64`, `size : u64`, `inode : u64`, `dev : u64`. -/
structure FileMeta where
  path : String
  name : String
  ext : Option String
  modified_at : Int
  size : Nat
  inode : Nat
  dev : Nat
deriving DecidableEq, Repr

/-- `FileMeta::identity` from `scanner.rs`:
`format!("{}:{}", dev, inode)` when `inode != 0 || dev != 0`,
else `format!("path:{}", path)`. -/
def FileMeta.identity (m : FileMeta) : String :=
  if m.inode ≠ 0 ∨ m.dev ≠ 0 then
    toString m.dev ++ ":" ++ toString m.inode
  else
    "path:" ++ m.path

/-! ## indexer.rs : documents and index state -/

/-- A document as built by `add_or_update_file` (`indexer.rs` lines
164-191): all ten schema fields; `ext` is omitted when absent and
`content` is omitted when absent or empty. -/
structure Doc where
  path : String
  name : String
  name_raw : String
  ext : Option String
  identity : String
  mtime : Int
  size : Nat
  inode : Nat
  dev : Nat
  content : Option String
deriving DecidableEq, Repr

/-- The document built from `meta` and `content_opt` inside the writer
section of `add_or_update_file`. -/
def docFromMeta (meta : FileMeta) (content_opt : Option String) : Doc :=
  { path := meta.path
    name := meta.name
    name_raw := meta.name
    ext := meta.ext
    identity := meta.identity
    mtime := meta.modified_at
    size := meta.size
    inode := meta.inode
    dev := meta.dev
    content := content_opt.bind fun c => if c.isEmpty then none else some c }

/-- `IndexedDocument` from `indexer.rs`: the `(path, mtime, size)`
triple extracted from a stored document. -/
structure IndexedDocument where
  path : String
  mtime : Int
  size : Nat
deriving DecidableEq, Repr

/-- `IndexedDocument::matches_meta` (`indexer.rs` lines 71-74). -/
def IndexedDocument.matches_meta (d : IndexedDocument) (meta : FileMeta) : Bool :=
  d.mtime == meta.modified_at && d.size == meta.size && d.path == meta.path

/-- `extract_indexed_document` (`indexer.rs` lines 240-261), on a
document that carries all its fields. -/
def extract_indexed_document (d : Doc) : IndexedDocument :=
  { path := d.path, mtime := d.mtime, size := d.size }

/-- A buffered tantivy writer operation: `IndexWriter::delete_term` or
`IndexWriter::add_document`. -/
inductive WriterOp where
  | deleteTerm (identity : String)
  | addDoc (doc : Doc)
deriving DecidableEq, Repr

/-- The state of the singleton index handle: `committed` is the set of
live documents visible to the reader (last committed snapshot), and
`pending` is the ordered list of writer operations buffered since the
last commit. -/
structure IndexState where
  committed : List Doc
  pending : List WriterOp
deriving DecidableEq, Repr

/-- Effect of one writer operation on a set of live documents.
tantivy's `delete_term` removes every earlier document holding the term
(committed or buffered); `add_document` appends a new live document. -/
def applyOp (docs : List Doc) : WriterOp → List Doc
  | WriterOp.deleteTerm idy => docs.filter fun d => d.identity != idy
  | WriterOp.addDoc d => docs ++ [d]

/-- The documents that would be live if the pending operations were
flushed now. -/
def liveDocs (s : IndexState) : List Doc :=
  s.pending.foldl applyOp s.committed

/-- `find_existing` (`indexer.rs` lines 263-281): a top-1 term query for
`identity` against the reader snapshot, extracting `(path, mtime, size)`
from the stored document.  The reader sees only committed documents;
with at most one live committed document per identity the top-1 result
is that document, modelled as the first committed document carrying the
identity. -/
def find_existing (committed : List Doc) (idy : String) : Option IndexedDocument :=
  ((committed.filter fun d => d.identity == idy).head?).map extract_indexed_document

/-- `IndexUpdate` from `indexer.rs`. -/
inductive IndexUpdate where
  | Added
  | Updated
  | Skipped
deriving DecidableEq, Repr

/-- The writer section of `add_or_update_file` (`indexer.rs` lines
164-191): under the writer lock, `delete_term` on the identity term,
then `add_document` with the fresh document. -/
def writeDoc (s : IndexState) (idy : String) (meta : FileMeta)
    (content_opt : Option String) : IndexState :=
  { s with
    pending := s.pending ++
      [WriterOp.deleteTerm idy, WriterOp.addDoc (docFromMeta meta content_opt)] }

/-- `add_or_update_file` (`indexer.rs` lines 145-194): classify against
the reader unless `force_reindex`, return `Skipped` without touching the
writer on a `(path, mtime, size)` match, otherwise delete-by-term and
add the fresh document. -/
def add_or_update_file (s : IndexState) (meta : FileMeta)
    (content_opt : Option String) (force_reindex : Bool) :
    IndexUpdate × IndexState :=
  let idy := meta.identity
  if force_reindex then
    (IndexUpdate.Added, writeDoc s idy meta content_opt)
  else
    match find_existing s.committed idy with
    | some existing =>
      if existing.matches_meta meta then (IndexUpdate.Skipped, s)
      else (IndexUpdate.Updated, writeDoc s idy meta content_opt)
    | none => (IndexUpdate.Added, writeDoc s idy meta content_opt)

/-- `commit` (`indexer.rs` lines 196-207): flush the buffered writer
operations and reload the reader, so the reader now sees the flushed
documents. -/
def commit (s : IndexState) : IndexState :=
  { committed := liveDocs s, pending := [] }

/-- One `add_or_update_file` call: its `meta`, optional content, and the
`force_reindex` flag. -/
structure Call where
  meta : FileMeta
  content : Option String
  force : Bool
deriving DecidableEq, Repr

/-- Run a sequence of `add_or_update_file` calls, threading the state. -/
def runCalls (s : IndexState) : List Call → IndexState
  | [] => s
  | c :: cs => runCalls (add_or_update_file s c.meta c.content c.force).2 cs

/-- The document written by the last call of the sequence that was not
classified `Skipped` (`none` when every call was skipped). -/
def lastAdded (s : IndexState) : List Call → Option Doc
  | [] => none
  | c :: cs =>
    let r := add_or_update_file s c.meta c.content c.force
    match lastAdded r.2 cs with
    | some d => some d
    | none =>
      if r.1 = IndexUpdate.Skipped then none
      else some (docFromMeta c.meta c.content)

/-! ### Indexer lemmas -/

theorem docFromMeta_identity (meta : FileMeta) (c : Option String) :
    (docFromMeta meta c).identity = meta.identity := rfl

theorem liveDocs_writeDoc (s : IndexState) (idy : String) (meta : FileMeta)
    (c : Option String) :
    liveDocs (writeDoc s idy meta c) =
      ((liveDocs s).filter fun d => d.identity != idy) ++ [docFromMeta meta c] := by
  simp [liveDocs, writeDoc, List.foldl_append, applyOp]

theorem addOrUpdate_skipped_state (s : IndexState) (meta : FileMeta)
    (c : Option String) (f : Bool)
    (h : (add_or_update_file s meta c f).1 = IndexUpdate.Skipped) :
    (add_or_update_file s meta c f).2 = s := by
  by_cases hf : f = true
  · simp [add_or_update_file, hf] at h
  · cases hfind : find_existing s.committed meta.identity with
    | none => simp [add_or_update_file, hf, hfind] at h
    | some e =>
      by_cases hm : e.matches_meta meta = true
      · simp [add_or_update_file, hf, hfind, hm]
      · simp [add_or_update_file, hf, hfind, hm] at h

theorem addOrUpdate_not_skipped_state (s : IndexState) (meta : FileMeta)
    (c : Option String) (f : Bool)
    (h : (add_or_update_file s meta c f).1 ≠ IndexUpdate.Skipped) :
    (add_or_update_file s meta c f).2 = writeDoc s meta.identity meta c := by
  by_cases hf : f = true
  · simp [add_or_update_file, hf]
  · cases hfind : find_existing s.committed meta.identity with
    | none => simp [add_or_update_file, hf, hfind]
    | some e =>
      by_cases hm : e.matches_meta meta = true
      · simp [add_or_update_file, hf, hfind, hm] at h
      · simp [add_or_update_file, hf, hfind, hm]

theorem filter_eq_of_filter_ne (idy : String) (l : List Doc) :
    ((l.filter fun d => d.identity != idy).filter fun d => d.identity == idy) = [] := by
  induction l with
  | nil => rfl
  | cons a t ih =>
    by_cases h : a.identity = idy
    · simp [List.filter_cons, h, ih]
    · simp [List.filter_cons, h, ih]

/-- Characterization of the live documents carrying identity `I` after a
sequence of calls whose metas all have identity `I`: if some call was
effective (not `Skipped`), exactly the document of the last effective
call is live under `I`; otherwise the live documents under `I` are
unchanged. -/
theorem filterId_liveDocs_runCalls (I : String) :
    ∀ (calls : List Call) (s : IndexState),
      (∀ c ∈ calls, c.meta.identity = I) →
      ((liveDocs (runCalls s calls)).filter fun d => d.identity == I) =
        (match lastAdded s calls with
         | some d => [d]
         | none => (liveDocs s).filter fun d => d.identity == I) := by
  intro calls
  induction calls with
  | nil => intro s _; simp [runCalls, lastAdded]
  | cons c cs ih =>
    intro s h
    have hc : c.meta.identity = I := h c (List.mem_cons_self c cs)
    have hcs : ∀ x ∈ cs, x.meta.identity = I := fun x hx => h x (List.mem_cons_of_mem c hx)
    rw [runCalls, lastAdded]
    have key := ih (add_or_update_file s c.meta c.content c.force).2 hcs
    by_cases hskip : (add_or_update_file s c.meta c.content c.force).1 = IndexUpdate.Skipped
    · have hst : (add_or_update_file s c.meta c.content c.force).2 = s :=
        addOrUpdate_skipped_state s c.meta c.content c.force hskip
      rw [key, hst]
      cases hl : lastAdded s cs with
      | none => simp [hskip]
      | some d => simp
    · have hst : (add_or_update_file s c.meta c.content c.force).2 =
          writeDoc s c.meta.identity c.meta c.content :=
        addOrUpdate_not_skipped_state s c.meta c.content c.force hskip
      rw [key, hst]
      cases hl : lastAdded (writeDoc s c.meta.identity c.meta c.content) cs with
      | some d => simp
      | none =>
        have : ((liveDocs (writeDoc s c.meta.identity c.meta c.content)).filter
            fun d => d.identity == I) = [docFromMeta c.meta c.content] := by
          rw [liveDocs_writeDoc]
          rw [List.filter_append]
          rw [hc, filter_eq_of_filter_ne]
          simp [docFromMeta_identity, hc]
        rw [this]
        simp [hskip]

/-- C1: for every sequence of `add_or_update_file` calls whose metas all
share identity `I`, started from a freshly committed state holding at
most one live document with identity `I`, the index after `commit`
holds at most one live document with identity `I`, and when some call
performed an add, that document is exactly the one built from the last
non-skipped call — each add is preceded by `delete_term` on the
identity, so the last add wins. -/
theorem C1_dedup_last_add_wins (I : String) (s : IndexState) (calls : List Call)
    (hid : ∀ c ∈ calls, c.meta.identity = I)
    (hpend : s.pending = [])
    (hinv : ((s.committed.filter fun d => d.identity == I).length ≤ 1)) :
    (((commit (runCalls s calls)).committed.filter fun d => d.identity == I).length ≤ 1)
    ∧ (∀ d, lastAdded s calls = some d →
        ((commit (runCalls s calls)).committed.filter fun d => d.identity == I) = [d]) := by
  have hlive : liveDocs s = s.committed := by
    simp [liveDocs, hpend]
  have key := filterId_liveDocs_runCalls I calls s hid
  have hcomm : (commit (runCalls s calls)).committed = liveDocs (runCalls s calls) := rfl
  constructor
  · rw [hcomm, key]
    cases hl : lastAdded s calls with
    | some d => simp
    | none => simpa [hlive] using hinv
  · intro d hd
    rw [hcomm, key, hd]

/-- In a list whose `p`-filter has length at most one, any member
satisfying `p` is the head of the filter. -/
theorem filter_singleton_of_mem {α : Type} (p : α → Bool) (l : List α) (x : α)
    (hx : x ∈ l) (hpx : p x = true) (hlen : (l.filter p).length ≤ 1) :
    l.filter p = [x] := by
  have hmem : x ∈ l.filter p := List.mem_filter.mpr ⟨hx, hpx⟩
  cases hfp : l.filter p with
  | nil => rw [hfp] at hmem; simp at hmem
  | cons a t =>
    cases t with
    | nil =>
      rw [hfp] at hmem
      simp at hmem
      rw [hmem]
    | cons b u => rw [hfp] at hlen; simp at hlen

/-- C2: with `force_reindex = false` and at most one committed document
carrying the identity of `meta`, `add_or_update_file` returns `Skipped`
and leaves the index state untouched when a committed document with
that identity matches `(path, mtime, size)`; returns `Updated` (and
writes delete-then-add) when such a document exists with a different
triple; and returns `Added` (and writes delete-then-add) when no
committed document carries the identity. -/
theorem C2_skip_classification (s : IndexState) (meta : FileMeta)
    (content : Option String)
    (hinv : ((s.committed.filter fun d => d.identity == meta.identity).length ≤ 1)) :
    ((∃ d ∈ s.committed, d.identity = meta.identity ∧ d.path = meta.path ∧
        d.mtime = meta.modified_at ∧ d.size = meta.size) →
      add_or_update_file s meta content false = (IndexUpdate.Skipped, s))
    ∧ ((∃ d ∈ s.committed, d.identity = meta.identity ∧ ¬(d.path = meta.path ∧
        d.mtime = meta.modified_at ∧ d.size = meta.size)) →
      add_or_update_file s meta content false =
        (IndexUpdate.Updated, writeDoc s meta.identity meta content))
    ∧ ((∀ d ∈ s.committed, d.identity ≠ meta.identity) →
      add_or_update_file s meta content false =
        (IndexUpdate.Added, writeDoc s meta.identity meta content)) := by
  refine ⟨?_, ?_, ?_⟩
  · rintro ⟨d, hd, hid, hpath, hmtime, hsize⟩
    have hfp : (s.committed.filter fun x => x.identity == meta.identity) = [d] :=
      filter_singleton_of_mem _ _ d hd (by simp [hid]) hinv
    have hfind : find_existing s.committed meta.identity =
        some (extract_indexed_document d) := by
      simp [find_existing, hfp]
    have hmatch : (extract_indexed_document d).matches_meta meta = true := by
      simp [extract_indexed_document, IndexedDocument.matches_meta, hpath, hmtime, hsize]
    unfold add_or_update_file
    simp [hfind, hmatch]
  · rintro ⟨d, hd, hid, hne⟩
    have hfp : (s.committed.filter fun x => x.identity == meta.identity) = [d] :=
      filter_singleton_of_mem _ _ d hd (by simp [hid]) hinv
    have hfind : find_existing s.committed meta.identity =
        some (extract_indexed_document d) := by
      simp [find_existing, hfp]
    have hmatch : (extract_indexed_document d).matches_meta meta = false := by
      simp only [extract_indexed_document, IndexedDocument.matches_meta]
      by_cases h1 : d.mtime = meta.modified_at
      · by_cases h2 : d.size = meta.size
        · by_cases h3 : d.path = meta.path
          · exact absurd ⟨h3, h1, h2⟩ hne
          · simp [h1, h2, h3]
        · simp [h1, h2]
      · simp [h1]
    unfold add_or_update_file
    simp [hfind, hmatch]
  · intro hnone
    have hfp : (s.committed.filter fun x => x.identity == meta.identity) = [] := by
      rw [List.filter_eq_nil_iff]
      intro d hd
      simp [hnone d hd]
    have hfind : find_existing s.committed meta.identity = none := by
      simp [find_existing, hfp]
    unfold add_or_update_file
    simp [hfind]

/-- A concrete meta with `dev = 1`, `inode = 1`, hence identity `"1:1"`. -/
def exMetaA : FileMeta := ⟨"a.txt", "a.txt", none, 1, 5, 1, 1⟩

/-- Two adds of `exMetaA` (second with content) before one commit. -/
def exCallsA : List Call := [⟨exMetaA, none, false⟩, ⟨exMetaA, some "x", false⟩]

theorem C1_dedup_last_add_wins_witness :
    (((commit (runCalls ⟨[], []⟩ exCallsA)).committed.filter
        fun d => d.identity == "1:1").length ≤ 1)
    ∧ ((commit (runCalls ⟨[], []⟩ exCallsA)).committed.filter
        fun d => d.identity == "1:1") = [docFromMeta exMetaA (some "x")] := by
  have h := C1_dedup_last_add_wins "1:1" ⟨[], []⟩ exCallsA (by decide) rfl (by decide)
  exact ⟨h.1, h.2 (docFromMeta exMetaA (some "x")) (by decide)⟩

/-- A concrete meta with `dev = 1`, `inode = 2`, hence identity `"1:2"`. -/
def exMetaB : FileMeta := ⟨"b.txt", "b.txt", none, 2, 7, 2, 1⟩

/-- A state whose reader holds exactly the document of `exMetaB`. -/
def exStateB : IndexState := ⟨[docFromMeta exMetaB none], []⟩

theorem C2_skip_classification_witness :
    add_or_update_file exStateB exMetaB (some "y") false =
      (IndexUpdate.Skipped, exStateB) := by
  have h := C2_skip_classification exStateB exMetaB (some "y") (by decide)
  exact h.1 (by decide)

/-- C10: with `force_reindex = true`, `add_or_update_file` never
consults the reader: it always returns `Added` — even when a committed
document with the same identity and an identical `(path, mtime, size)`
triple exists — and still buffers `delete_term(identity)` followed by
the fresh add. -/
theorem C10_force_reindex_always_added (s : IndexState) (meta : FileMeta)
    (content : Option String) :
    add_or_update_file s meta content true =
      (IndexUpdate.Added,
        { s with pending := s.pending ++
            [WriterOp.deleteTerm meta.identity,
             WriterOp.addDoc (docFromMeta meta content)] }) := rfl

/-- C3: `identity` is a pure function of the meta (it is a Lean
function, hence deterministic); it returns `"<dev>:<inode>"` —
`dev` first, then `inode`, colon-separated — when `inode` or `dev` is
non-zero, and `"path:<path>"` when both are zero. -/
theorem C3_identity_shape (m : FileMeta) :
    (m.inode ≠ 0 ∨ m.dev ≠ 0 →
      m.identity = toString m.dev ++ ":" ++ toString m.inode)
    ∧ (m.inode = 0 → m.dev = 0 → m.identity = "path:" ++ m.path) := by
  constructor
  · intro h
    simp [FileMeta.identity, h]
  · intro h1 h2
    simp [FileMeta.identity, h1, h2]

theorem C3_identity_shape_witness :
    FileMeta.identity ⟨"a.txt", "a.txt", none, 1, 5, 7, 3⟩ = "3:7"
    ∧ FileMeta.identity ⟨"b.txt", "b.txt", none, 1, 5, 0, 0⟩ = "path:b.txt" := by
  constructor
  · exact (C3_identity_shape ⟨"a.txt", "a.txt", none, 1, 5, 7, 3⟩).1 (by decide)
  · exact (C3_identity_shape ⟨"b.txt", "b.txt", none, 1, 5, 0, 0⟩).2 rfl rfl

/-! ## query.rs : the search pipeline

The tantivy internals (query parser, regex compiler, searcher) and the
globset compiler are external libraries; they enter the model as an
abstract environment of pure functions.  Everything `query.rs` itself
does — trimming, field scoping, clause construction, the silent drop of
a failing regex clause, glob post-filtering of stored paths, hit
construction and the final sort — is modelled concretely. -/

/-- Rust `char::is_whitespace`: the Unicode `White_Space` property. -/
def rustIsWhitespace (c : Char) : Bool :=
  c.val == 0x09 || c.val == 0x0A || c.val == 0x0B || c.val == 0x0C ||
  c.val == 0x0D || c.val == 0x20 || c.val == 0x85 || c.val == 0xA0 ||
  c.val == 0x1680 || (0x2000 ≤ c.val && c.val ≤ 0x200A) ||
  c.val == 0x2028 || c.val == 0x2029 || c.val == 0x202F ||
  c.val == 0x205F || c.val == 0x3000

/-- Rust `str::trim`: strip leading and trailing whitespace. -/
def rustTrim (s : String) : String :=
  ⟨((s.data.dropWhile rustIsWhitespace).reverse.dropWhile rustIsWhitespace).reverse⟩

/-- `regex::escape`: backslash-escape every regex meta character. -/
def regexEscape (s : String) : String :=
  ⟨s.data.foldr (fun c acc =>
    if c ∈ ['\\', '.', '+', '*', '?', '(', ')', '|', '[', ']',
            '\x7b', '\x7d', '^', '$', '#', '&', '-', '~']
    then '\\' :: c :: acc else c :: acc) []⟩

/-- An `f32` relevance score: NaN or a numeric value.  Rationals carry
exactly the order structure `partial_cmp` consults on non-NaN floats. -/
inductive Score where
  | nan
  | val (q : ℚ)
deriving DecidableEq, Repr

/-- Numeric comparison on the value part (`Ord` on non-NaN floats). -/
def cmpQ (x y : ℚ) : Ordering :=
  if x < y then Ordering.lt else if y < x then Ordering.gt else Ordering.eq

/-- `i64::cmp`. -/
def cmpInt (x y : Int) : Ordering :=
  if x < y then Ordering.lt else if y < x then Ordering.gt else Ordering.eq

/-- `f32::partial_cmp`: `None` iff either side is NaN, else the numeric
ordering. -/
def scorePCmp : Score → Score → Option Ordering
  | Score.val x, Score.val y => some (cmpQ x y)
  | _, _ => none

/-- `SearchHit` from `query.rs`. -/
structure SearchHit where
  path : String
  name : String
  score : Score
  modified_at : Option Int
  size : Option Nat
deriving DecidableEq, Repr

/-- The sort comparator of `search` (`query.rs` lines 145-150):
`b.score.partial_cmp(&a.score).unwrap_or(Equal)
   .then_with(|| b.mtime.unwrap_or(0).cmp(&a.mtime.unwrap_or(0)))`. -/
def hitCmp (a b : SearchHit) : Ordering :=
  ((scorePCmp b.score a.score).getD Ordering.eq).then
    (cmpInt (b.modified_at.getD 0) (a.modified_at.getD 0))

/-- `a` may precede `b` under the comparator. -/
def hitLE (a b : SearchHit) : Bool :=
  hitCmp a b != Ordering.gt

/-- `hitLE` as a relation, for sortedness statements. -/
abbrev hitLEP (a b : SearchHit) : Prop :=
  hitLE a b = true

/-- Stable insertion into a sorted list (`le x y` meaning `x` may
precede `y`). -/
def sortInsert {α : Type} (le : α → α → Bool) (a : α) : List α → List α
  | [] => [a]
  | b :: l => if le a b then a :: b :: l else b :: sortInsert le a l

/-- A stable comparison sort, modelling `slice::sort_by` (Rust's stable
sort; for a comparator that is a total order any stable sort produces
the same list, and on small slices Rust's sort is insertion sort). -/
def sortByCore {α : Type} (le : α → α → Bool) : List α → List α
  | [] => []
  | a :: l => sortInsert le a (sortByCore le l)

/-- The sort stage of `search`. -/
def sortHits (hits : List SearchHit) : List SearchHit :=
  sortByCore hitLE hits

/-- `SearchDomain` from `query.rs`. -/
inductive SearchDomain where
  | Name
  | Content
  | Both
deriving DecidableEq, Repr

/-- `matches!(search_in, SearchDomain::Name | SearchDomain::Both)`. -/
def nameInScope : SearchDomain → Bool
  | SearchDomain.Content => false
  | _ => true

/-- `SearchQuery` from `query.rs` (`limit : usize`). -/
structure SearchQuery where
  term : String
  search_in : SearchDomain
  path_glob : Option String
  limit : Nat
deriving DecidableEq, Repr

/-- `Occur` of a tantivy boolean clause. -/
inductive TOccur where
  | should
  | must
  | mustNot
deriving DecidableEq, Repr

/-- The shape of the tantivy query value `search` builds: the parsed
user query (abstract), an anchored regex query on a named field, a
boost wrapper, or a boolean combination of clauses. -/
inductive TQuery where
  | parsedQ (term : String)
  | regexQ (pat : String) (field : String)
  | boost (q : TQuery) (factor : ℚ)
  | boolean (clauses : List (TOccur × TQuery))

/-- A stored document as fetched back from the searcher
(`searcher.doc`): each stored field may be absent. -/
structure StoredDoc where
  path : Option String
  name : Option String
  mtime : Option Int
  size : Option Nat
deriving DecidableEq, Repr

/-- The arguments `build_glob_matcher` hands to globset:
`GlobBuilder::new(raw).case_insensitive(true)`. -/
structure GlobSpec where
  pat : String
  caseInsensitive : Bool
deriving DecidableEq, Repr

/-- The external collaborators of `search`, as pure functions:
tantivy's `QueryParser::parse_query`, the success of
`RegexQuery::from_pattern` on `name_raw`, the searcher's top-K
execution (returning scored stored documents), and globset's compile
(returning a matcher on path strings). -/
structure SearchEnv where
  parse : String → Except String TQuery
  regexOk : String → Bool
  execute : TQuery → Nat → List (Score × StoredDoc)
  compileGlob : GlobSpec → Except String (String → Bool)

/-- `build_glob_matcher` (`query.rs` lines 155-166):
`pattern.map(str::trim).filter(|p| !p.is_empty())` — `None` means no
filter — then a case-insensitive globset compile whose failure is an
error. -/
def buildGlobMatcher (compile : GlobSpec → Except String (String → Bool))
    (pattern : Option String) : Except String (Option (String → Bool)) :=
  match (pattern.map rustTrim).filter (fun p => !p.isEmpty) with
  | none => Except.ok none
  | some raw =>
    match compile ⟨raw, true⟩ with
    | Except.ok m => Except.ok (some m)
    | Except.error e => Except.error e

/-- The base "Should" clause (`query.rs` lines 82-88): the parsed query,
wrapped in a 1.5 boost when the name field is in scope. -/
def mainQueryOf (dom : SearchDomain) (parsed : TQuery) : TQuery :=
  if nameInScope dom then TQuery.boost parsed (3 / 2) else parsed

/-- The anchored regex pattern of the boost clause: `^<escape(term)>.*`. -/
def boostPat (trimmed : String) : String :=
  "^" ++ regexEscape trimmed ++ ".*"

/-- The subquery list of `search` (`query.rs` lines 81-100): the base
clause, plus — when the name field is in scope and the trimmed term is
non-empty and whitespace-free — a 3.0-boosted regex clause on
`name_raw`, silently dropped if the regex does not compile. -/
def buildSubqueries (env : SearchEnv) (trimmed : String) (dom : SearchDomain)
    (parsed : TQuery) : List (TOccur × TQuery) :=
  let base := [(TOccur.should, mainQueryOf dom parsed)]
  if nameInScope dom && !trimmed.isEmpty && !(trimmed.data.any rustIsWhitespace) then
    if env.regexOk (boostPat trimmed) then
      base ++ [(TOccur.should,
        TQuery.boost (TQuery.regexQ (boostPat trimmed) "name_raw") 3)]
    else base
  else base

/-- Clause combination (`query.rs` lines 102-106): a single clause
passes through unwrapped, several become a boolean query. -/
def combineSubs (subs : List (TOccur × TQuery)) : TQuery :=
  match subs with
  | [single] => single.2
  | l => TQuery.boolean l

/-- Hit construction from a fetched document (`query.rs` lines
121-142): stored text fields default to empty when absent. -/
def buildHit (score : Score) (d : StoredDoc) : SearchHit :=
  { path := d.path.getD ""
    name := d.name.getD ""
    score := score
    modified_at := d.mtime
    size := d.size }

/-- The hit-collection loop (`query.rs` lines 115-143): fetch each
document, drop it when a glob matcher is present and the stored path
does not match, and build the hit. -/
def collectHits (matcher : Option (String → Bool))
    (top : List (Score × StoredDoc)) : List SearchHit :=
  top.filterMap fun sd =>
    let h := buildHit sd.1 sd.2
    match matcher with
    | some m => if m h.path then some h else none
    | none => some h

/-- `search` (`query.rs` lines 51-153): trim the term (empty means an
empty Ok result), parse (failure is an error), build and combine the
clauses, execute top-`max(limit, 1)`, compile the glob (failure is an
error), filter, build hits, sort. -/
def searchModel (env : SearchEnv) (q : SearchQuery) :
    Except String (List SearchHit) :=
  let trimmed := rustTrim q.term
  if trimmed.isEmpty then Except.ok []
  else
    match env.parse trimmed with
    | Except.error e => Except.error e
    | Except.ok parsed =>
      let subs := buildSubqueries env trimmed q.search_in parsed
      let top := env.execute (combineSubs subs) (max q.limit 1)
      match buildGlobMatcher env.compileGlob q.path_glob with
      | Except.error e => Except.error e
      | Except.ok matcher => Except.ok (sortHits (collectHits matcher top))

/-! ### Comparator lemmas -/

theorem cmpQ_swap (x y : ℚ) : cmpQ x y = (cmpQ y x).swap := by
  unfold cmpQ
  split_ifs <;> first | rfl | (exfalso; linarith)

theorem cmpInt_swap (x y : Int) : cmpInt x y = (cmpInt y x).swap := by
  unfold cmpInt
  split_ifs <;> first | rfl | (exfalso; omega)

theorem scorePCmp_swap (x y : Score) :
    scorePCmp x y = (scorePCmp y x).map Ordering.swap := by
  cases x <;> cases y
  · rfl
  · rfl
  · rfl
  · simp only [scorePCmp, Option.map_some]
    rw [cmpQ_swap]
    rfl

theorem then_swap (o p : Ordering) : (o.then p).swap = o.swap.then p.swap := by
  cases o <;> cases p <;> rfl

theorem getD_map_swap (o : Option Ordering) :
    (o.map Ordering.swap).getD Ordering.eq = (o.getD Ordering.eq).swap := by
  cases o <;> rfl

theorem hitCmp_swap (a b : SearchHit) : hitCmp b a = (hitCmp a b).swap := by
  unfold hitCmp
  rw [then_swap]
  congr 1
  · rw [scorePCmp_swap a.score b.score, getD_map_swap]
  · exact cmpInt_swap _ _

theorem bne_gt_eq_true_iff (o : Ordering) :
    (o != Ordering.gt) = true ↔ ¬(o = Ordering.gt) := by
  cases o <;> simp [bne] <;> rfl

theorem hitLE_total (a b : SearchHit) : hitLE a b = true ∨ hitLE b a = true := by
  unfold hitLE
  by_cases h : hitCmp a b = Ordering.gt
  · right
    rw [hitCmp_swap, h]
    rfl
  · left
    rw [bne_gt_eq_true_iff]
    exact h

theorem then_ne_gt (o p : Ordering) :
    ¬(o.then p = Ordering.gt) ↔
      (o = Ordering.lt ∨ (o = Ordering.eq ∧ ¬(p = Ordering.gt))) := by
  cases o <;> cases p <;> simp [Ordering.then]

theorem cmpQ_lt_iff (x y : ℚ) : cmpQ x y = Ordering.lt ↔ x < y := by
  unfold cmpQ
  split_ifs with h1 h2
  · simp [h1]
  · simp [lt_asymm h2]
  · simp [h1]

theorem cmpQ_eq_iff (x y : ℚ) : cmpQ x y = Ordering.eq ↔ x = y := by
  unfold cmpQ
  split_ifs with h1 h2
  · simp [ne_of_lt h1]
  · simp [(ne_of_lt h2).symm]
  · simp [le_antisymm (le_of_not_lt h2) (le_of_not_lt h1)]

theorem cmpInt_ne_gt_iff (x y : Int) : ¬(cmpInt x y = Ordering.gt) ↔ x ≤ y := by
  unfold cmpInt
  split_ifs <;> simp <;> omega

/-- For non-NaN scores the comparator accepts `a` before `b` exactly
when `a` scores strictly higher, or the scores tie and `a`'s mtime is
at least `b`'s. -/
theorem hitLE_val_iff (a b : SearchHit) (x y : ℚ)
    (hx : a.score = Score.val x) (hy : b.score = Score.val y) :
    hitLE a b = true ↔
      (y < x ∨ (y = x ∧ b.modified_at.getD 0 ≤ a.modified_at.getD 0)) := by
  unfold hitLE hitCmp
  rw [hx, hy]
  simp only [scorePCmp, Option.getD_some]
  rw [bne_gt_eq_true_iff, then_ne_gt, cmpQ_lt_iff, cmpQ_eq_iff, cmpInt_ne_gt_iff]

theorem hitLE_trans_of_val (a b c : SearchHit)
    (ha : a.score ≠ Score.nan) (hb : b.score ≠ Score.nan)
    (hc : c.score ≠ Score.nan)
    (h1 : hitLE a b = true) (h2 : hitLE b c = true) : hitLE a c = true := by
  rcases hxa : a.score with _ | x
  · exact absurd hxa ha
  rcases hxb : b.score with _ | y
  · exact absurd hxb hb
  rcases hxc : c.score with _ | z
  · exact absurd hxc hc
  rw [hitLE_val_iff a b x y hxa hxb] at h1
  rw [hitLE_val_iff b c y z hxb hxc] at h2
  rw [hitLE_val_iff a c x z hxa hxc]
  rcases h1 with h1 | ⟨h1e, h1m⟩ <;> rcases h2 with h2 | ⟨h2e, h2m⟩
  · exact Or.inl (lt_trans h2 h1)
  · exact Or.inl (h2e ▸ h1)
  · exact Or.inl (h1e ▸ h2)
  · exact Or.inr ⟨h2e.trans h1e, le_trans h2m h1m⟩

/-! ### Stable-sort lemmas -/

theorem mem_sortInsert {α : Type} (le : α → α → Bool) (a x : α) :
    ∀ l, x ∈ sortInsert le a l ↔ x = a ∨ x ∈ l := by
  intro l
  induction l with
  | nil => simp [sortInsert]
  | cons b t ih =>
    rw [sortInsert]
    by_cases h : le a b = true
    · simp [h]
    · simp [h, ih]
      tauto

theorem mem_sortByCore {α : Type} (le : α → α → Bool) (x : α) :
    ∀ l, x ∈ sortByCore le l ↔ x ∈ l := by
  intro l
  induction l with
  | nil => simp [sortByCore]
  | cons a t ih =>
    rw [sortByCore, mem_sortInsert]
    simp [ih]

theorem chain'_sortInsert {α : Type} (le : α → α → Bool)
    (htot : ∀ x y, le x y = true ∨ le y x = true) (a : α) :
    ∀ l, List.Chain' (fun x y => le x y = true) l →
      List.Chain' (fun x y => le x y = true) (sortInsert le a l) := by
  intro l
  induction l with
  | nil => intro _; simp [sortInsert]
  | cons b t ih =>
    intro h
    rw [sortInsert]
    by_cases hab : le a b = true
    · rw [if_pos hab]
      exact h.cons hab
    · rw [if_neg hab]
      have hba : le b a = true := (htot a b).resolve_left hab
      rw [List.chain'_cons']
      refine ⟨?_, ih h.tail⟩
      intro y hy
      cases t with
      | nil =>
        simp [sortInsert] at hy
        exact hy ▸ hba
      | cons c t' =>
        rw [sortInsert] at hy
        by_cases hac : le a c = true
        · rw [if_pos hac] at hy
          simp at hy
          exact hy ▸ hba
        · rw [if_neg hac] at hy
          simp at hy
          exact hy ▸ (List.chain'_cons.mp h).1

theorem chain'_sortByCore {α : Type} (le : α → α → Bool)
    (htot : ∀ x y, le x y = true ∨ le y x = true) :
    ∀ l, List.Chain' (fun x y => le x y = true) (sortByCore le l) := by
  intro l
  induction l with
  | nil => simp [sortByCore]
  | cons a t ih => exact chain'_sortInsert le htot a _ ih

theorem pairwise_sortInsert {α : Type} (le : α → α → Bool) (P : α → Prop)
    (htrans : ∀ x y z, P x → P y → P z →
      le x y = true → le y z = true → le x z = true)
    (htot : ∀ x y, le x y = true ∨ le y x = true) (a : α) :
    ∀ l, P a → (∀ x ∈ l, P x) →
      List.Pairwise (fun x y => le x y = true) l →
      List.Pairwise (fun x y => le x y = true) (sortInsert le a l) := by
  intro l
  induction l with
  | nil => intro _ _ _; simp [sortInsert]
  | cons b t ih =>
    intro ha hl h
    have hb : P b := hl b (List.mem_cons_self b t)
    have ht : ∀ x ∈ t, P x := fun x hx => hl x (List.mem_cons_of_mem b hx)
    rcases List.pairwise_cons.mp h with ⟨hbt, hpt⟩
    rw [sortInsert]
    by_cases hab : le a b = true
    · rw [if_pos hab]
      refine List.pairwise_cons.mpr ⟨?_, h⟩
      intro x hx
      rcases List.mem_cons.mp hx with rfl | hx'
      · exact hab
      · exact htrans a b x ha hb (ht x hx') hab (hbt x hx')
    · rw [if_neg hab]
      have hba : le b a = true := (htot a b).resolve_left hab
      refine List.pairwise_cons.mpr ⟨?_, ih ha ht hpt⟩
      intro x hx
      rcases (mem_sortInsert le a x t).mp hx with rfl | hx'
      · exact hba
      · exact hbt x hx'

theorem pairwise_sortByCore {α : Type} (le : α → α → Bool) (P : α → Prop)
    (htrans : ∀ x y z, P x → P y → P z →
      le x y = true → le y z = true → le x z = true)
    (htot : ∀ x y, le x y = true ∨ le y x = true) :
    ∀ l, (∀ x ∈ l, P x) →
      List.Pairwise (fun x y => le x y = true) (sortByCore le l) := by
  intro l
  induction l with
  | nil => intro _; simp [sortByCore]
  | cons a t ih =>
    intro hl
    exact pairwise_sortInsert le P htrans htot a _
      (hl a (List.mem_cons_self a t))
      (fun x hx => hl x ((mem_sortByCore le x t).mp hx |> List.mem_cons_of_mem a))
      (ih fun x hx => hl x (List.mem_cons_of_mem a hx))

/-! ### C4: ranking stability -/

/-- C4 (amended): whenever `search` succeeds, every adjacent pair of the
returned hit list is non-descending under the comparator
`(score desc, then mtime desc, NaN comparing equal)`, and when no
returned score is NaN the list is fully sorted by score descending with
ties broken by mtime descending.  The NaN-equal comparison never fails,
but — as `C4_nan_not_sorted` shows — a NaN score can leave non-adjacent
hits out of descending order. -/
theorem C4_sorted_output (env : SearchEnv) (q : SearchQuery)
    (hits : List SearchHit) (h : searchModel env q = Except.ok hits) :
    List.Chain' hitLEP hits ∧
      ((∀ x ∈ hits, x.score ≠ Score.nan) → List.Pairwise hitLEP hits) := by
  unfold searchModel at h
  by_cases he : (rustTrim q.term).isEmpty = true
  · rw [if_pos he] at h
    simp only [Except.ok.injEq] at h
    subst h
    exact ⟨List.chain'_nil, fun _ => List.Pairwise.nil⟩
  · rw [if_neg he] at h
    cases hp : env.parse (rustTrim q.term) with
    | error e =>
      rw [hp] at h
      simp at h
    | ok parsed =>
      rw [hp] at h
      dsimp only at h
      cases hg : buildGlobMatcher env.compileGlob q.path_glob with
      | error e =>
        rw [hg] at h
        simp at h
      | ok matcher =>
        rw [hg] at h
        simp only [Except.ok.injEq] at h
        subst h
        constructor
        · exact chain'_sortByCore hitLE hitLE_total _
        · intro hnn
          exact pairwise_sortByCore hitLE (fun x => x.score ≠ Score.nan)
            hitLE_trans_of_val hitLE_total _
            (fun x hx => hnn x ((mem_sortByCore hitLE x _).mpr hx))

/-- A searcher returning scores `1.0`, NaN, `5.0` with mtimes `5, 3, 1`. -/
def exEnvC4 : SearchEnv :=
  { parse := fun t => Except.ok (TQuery.parsedQ t)
    regexOk := fun _ => true
    execute := fun _ _ =>
      [(Score.val 1, ⟨some "a", some "a", some 5, none⟩),
       (Score.nan, ⟨some "b", some "b", some 3, none⟩),
       (Score.val 5, ⟨some "c", some "c", some 1, none⟩)]
    compileGlob := fun _ => Except.ok fun _ => true }

/-- A content query with no glob. -/
def exQC4 : SearchQuery := ⟨"q", SearchDomain.Content, none, 10⟩

/-- The hit list `search` returns in the NaN scenario. -/
def exHitsC4 : List SearchHit :=
  [⟨"a", "a", Score.val 1, some 5, none⟩,
   ⟨"b", "b", Score.nan, some 3, none⟩,
   ⟨"c", "c", Score.val 5, some 1, none⟩]

/-- C4 is false as stated: with a NaN score among the hits, the list
`search` returns is NOT sorted by `(score desc, mtime desc)` — here the
first returned hit scores `1.0` and the third scores `5.0`; the NaN hit
between them compares equal to both, so the stable sort leaves the list
untouched and the score-descending order is violated. -/
theorem C4_nan_not_sorted :
    searchModel exEnvC4 exQC4 = Except.ok exHitsC4 ∧
      ¬ List.Pairwise hitLEP exHitsC4 := by
  constructor
  · rfl
  · decide

/-- A searcher returning two non-NaN scores out of order. -/
def exEnvC4b : SearchEnv :=
  { parse := fun t => Except.ok (TQuery.parsedQ t)
    regexOk := fun _ => true
    execute := fun _ _ =>
      [(Score.val 1, ⟨some "a", some "a", some 5, none⟩),
       (Score.val 5, ⟨some "c", some "c", some 1, none⟩)]
    compileGlob := fun _ => Except.ok fun _ => true }

/-- The sorted hit list of the NaN-free scenario. -/
def exHitsC4b : List SearchHit :=
  [⟨"c", "c", Score.val 5, some 1, none⟩,
   ⟨"a", "a", Score.val 1, some 5, none⟩]

theorem C4_sorted_output_witness :
    List.Chain' hitLEP exHitsC4b ∧ List.Pairwise hitLEP exHitsC4b := by
  have h := C4_sorted_output exEnvC4b exQC4 exHitsC4b rfl
  exact ⟨h.1, h.2 (by decide)⟩

/-! ### C5: glob filter -/

theorem searchModel_congr (env : SearchEnv) (q1 q2 : SearchQuery)
    (hterm : q1.term = q2.term) (hscope : q1.search_in = q2.search_in)
    (hlimit : q1.limit = q2.limit)
    (hmm : buildGlobMatcher env.compileGlob q1.path_glob =
      buildGlobMatcher env.compileGlob q2.path_glob) :
    searchModel env q1 = searchModel env q2 := by
  unfold searchModel
  rw [hterm, hscope, hlimit, hmm]

/-- C5 (amended): an empty or whitespace-only glob pattern applies no
filter; when the trimmed term is non-empty, a pattern rejected by the
case-insensitive globset compile makes `search` return an error (with
an empty trimmed term `search` returns `Ok []` before ever looking at
the glob — see `C5_empty_term_bad_glob_ok`); when the pattern compiles,
every returned hit's stored path satisfies the compiled matcher, and
the collection stage drops exactly the hits whose path does not match. -/
theorem C5_glob_filter (env : SearchEnv) (q : SearchQuery) :
    ((q.path_glob.map rustTrim).filter (fun p => !p.isEmpty) = none →
      searchModel env q = searchModel env { q with path_glob := none })
    ∧ (∀ raw e, (q.path_glob.map rustTrim).filter (fun p => !p.isEmpty) = some raw →
        env.compileGlob ⟨raw, true⟩ = Except.error e →
        ¬(rustTrim q.term).isEmpty →
        ∃ e2, searchModel env q = Except.error e2)
    ∧ (∀ raw m hits,
        (q.path_glob.map rustTrim).filter (fun p => !p.isEmpty) = some raw →
        env.compileGlob ⟨raw, true⟩ = Except.ok m →
        searchModel env q = Except.ok hits →
        ∀ h ∈ hits, m h.path = true)
    ∧ (∀ (m : String → Bool) (top : List (Score × StoredDoc)),
        collectHits (some m) top =
          (collectHits none top).filter (fun h => m h.path)) := by
  refine ⟨?_, ?_, ?_, ?_⟩
  · intro hnone
    refine searchModel_congr env q _ rfl rfl rfl ?_
    have h1 : buildGlobMatcher env.compileGlob q.path_glob = Except.ok none := by
      unfold buildGlobMatcher
      rw [hnone]
    rw [h1]
    rfl
  · intro raw e hraw hcomp hne
    have hm : buildGlobMatcher env.compileGlob q.path_glob = Except.error e := by
      unfold buildGlobMatcher
      rw [hraw]
      dsimp only
      rw [hcomp]
    unfold searchModel
    rw [if_neg hne]
    cases hp : env.parse (rustTrim q.term) with
    | error e2 => exact ⟨e2, rfl⟩
    | ok parsed =>
      refine ⟨e, ?_⟩
      dsimp only
      rw [hm]
  · intro raw m hits hraw hcomp hok h hmem
    have hm : buildGlobMatcher env.compileGlob q.path_glob =
        Except.ok (some m) := by
      unfold buildGlobMatcher
      rw [hraw]
      dsimp only
      rw [hcomp]
    unfold searchModel at hok
    by_cases he : (rustTrim q.term).isEmpty = true
    · rw [if_pos he] at hok
      simp only [Except.ok.injEq] at hok
      subst hok
      simp at hmem
    · rw [if_neg he] at hok
      cases hp : env.parse (rustTrim q.term) with
      | error e2 =>
        rw [hp] at hok
        simp at hok
      | ok parsed =>
        rw [hp] at hok
        dsimp only at hok
        rw [hm] at hok
        simp only [Except.ok.injEq] at hok
        subst hok
        have hmem2 := (mem_sortByCore hitLE h _).mp hmem
        obtain ⟨sd, _, heq⟩ := List.mem_filterMap.mp hmem2
        dsimp only at heq
        by_cases hpm : m (buildHit sd.1 sd.2).path = true
        · rw [if_pos hpm] at heq
          simp only [Option.some.injEq] at heq
          rw [← heq]
          exact hpm
        · rw [if_neg hpm] at heq
          simp at heq
  · intro m top
    induction top with
    | nil => rfl
    | cons sd t ih =>
      simp only [collectHits, List.filterMap_cons] at ih ⊢
      by_cases hpm : m (buildHit sd.1 sd.2).path = true
      · simp [hpm, List.filter_cons, ih]
      · simp [hpm, List.filter_cons, ih]

/-- A globset compile that always fails. -/
def exEnvC5 : SearchEnv :=
  { parse := fun t => Except.ok (TQuery.parsedQ t)
    regexOk := fun _ => true
    execute := fun _ _ => []
    compileGlob := fun _ => Except.error "invalid glob pattern" }

/-- An empty term combined with an uncompilable glob pattern. -/
def exQC5 : SearchQuery := ⟨"", SearchDomain.Both, some "[", 10⟩

/-- C5 is false as stated: with an empty search term, `search` returns
`Ok []` immediately, before the glob is examined — so an uncompilable
pattern does NOT make `search` return an error in that case. -/
theorem C5_empty_term_bad_glob_ok :
    exEnvC5.compileGlob ⟨"[", true⟩ = Except.error "invalid glob pattern" ∧
      searchModel exEnvC5 exQC5 = Except.ok [] :=
  ⟨rfl, rfl⟩

/-- A searcher returning an `a.md` and a `b.txt` document, and a glob
compile producing the matcher `(= "a.md")`. -/
def exEnvC5b : SearchEnv :=
  { parse := fun t => Except.ok (TQuery.parsedQ t)
    regexOk := fun _ => true
    execute := fun _ _ =>
      [(Score.val 1, ⟨some "a.md", some "a.md", some 1, none⟩),
       (Score.val 1, ⟨some "b.txt", some "b.txt", some 1, none⟩)]
    compileGlob := fun _ => Except.ok (fun s => s == "a.md") }

/-- A query with glob pattern `*.md`. -/
def exQC5b : SearchQuery := ⟨"q", SearchDomain.Both, some "*.md", 10⟩

/-- The single surviving hit of the glob scenario. -/
def exHitC5b : SearchHit := ⟨"a.md", "a.md", Score.val 1, some 1, none⟩

theorem C5_glob_filter_witness :
    (fun s => s == "a.md") exHitC5b.path = true := by
  have h := (C5_glob_filter exEnvC5b exQC5b).2.2.1 "*.md"
    (fun s => s == "a.md") [exHitC5b] rfl rfl rfl
  exact h exHitC5b (List.mem_singleton.mpr rfl)

/-! ### C6: the anchored-regex boost clause -/

/-- C6: the clause list holds the 3.0-boosted regex clause
`^<escape(term)>.*` on `name_raw` as a second "Should" clause exactly
when the name field is in scope, the trimmed term is non-empty and
whitespace-free, and the regex compiles; and when the regex fails to
compile, only that clause is dropped: `search` runs the base clause
alone (unwrapped, not inside a boolean query) and returns `Ok`. -/
theorem C6_regex_boost_clause (env : SearchEnv) (q : SearchQuery)
    (parsed : TQuery)
    (hne : ¬(rustTrim q.term).isEmpty)
    (hp : env.parse (rustTrim q.term) = Except.ok parsed) :
    (buildSubqueries env (rustTrim q.term) q.search_in parsed =
      if nameInScope q.search_in && !(rustTrim q.term).isEmpty
          && !((rustTrim q.term).data.any rustIsWhitespace)
          && env.regexOk (boostPat (rustTrim q.term))
      then [(TOccur.should, mainQueryOf q.search_in parsed),
            (TOccur.should, TQuery.boost
              (TQuery.regexQ (boostPat (rustTrim q.term)) "name_raw") 3)]
      else [(TOccur.should, mainQueryOf q.search_in parsed)])
    ∧ (env.regexOk (boostPat (rustTrim q.term)) = false →
        ∀ matcher,
          buildGlobMatcher env.compileGlob q.path_glob = Except.ok matcher →
          searchModel env q = Except.ok (sortHits (collectHits matcher
            (env.execute (mainQueryOf q.search_in parsed) (max q.limit 1))))) := by
  constructor
  · cases hA : (nameInScope q.search_in && !(rustTrim q.term).isEmpty
        && !((rustTrim q.term).data.any rustIsWhitespace)) with
    | false => simp [buildSubqueries, hA]
    | true =>
      cases hB : env.regexOk (boostPat (rustTrim q.term)) with
      | false => simp [buildSubqueries, hA, hB]
      | true => simp [buildSubqueries, hA, hB]
  · intro hreg matcher hmatch
    have hsub : buildSubqueries env (rustTrim q.term) q.search_in parsed =
        [(TOccur.should, mainQueryOf q.search_in parsed)] := by
      simp [buildSubqueries, hreg]
    unfold searchModel
    rw [if_neg hne, hp]
    dsimp only
    rw [hsub, hmatch]
    rfl

/-- A tantivy regex compiler that always fails. -/
def exEnvC6 : SearchEnv :=
  { parse := fun t => Except.ok (TQuery.parsedQ t)
    regexOk := fun _ => false
    execute := fun _ _ => []
    compileGlob := fun _ => Except.ok fun _ => true }

/-- A whitespace-free name-scope query (the boost clause would apply). -/
def exQC6 : SearchQuery := ⟨"abc", SearchDomain.Name, none, 10⟩

theorem C6_regex_boost_clause_witness :
    searchModel exEnvC6 exQC6 = Except.ok [] := by
  have h := (C6_regex_boost_clause exEnvC6 exQC6 (TQuery.parsedQ "abc")
    (by decide) rfl).2 rfl none rfl
  exact h

/-! ## ffi.rs : the C-ABI boundary

Raw C pointers cannot be embedded directly; a nullable pointer to a
string is modelled as `Option String` (`none` = NULL), and the
`FCResults` struct a caller owns is modelled by its value, with
`fc_free_results` returning the struct value it leaves behind together
with a flag telling whether it freed the hit array. -/

/-- `FCFileMeta` from `ffi.rs`: three nullable C strings plus the
numeric fields. -/
structure FCFileMeta where
  path : Option String
  name : Option String
  ext : Option String
  mtime : Int
  size : Nat
  inode : Nat
  dev : Nat
deriving DecidableEq, Repr

/-- `file_meta_from_ffi` (`ffi.rs` lines 239-255): `none` for a NULL
meta pointer or NULL `path`/`name`; an empty `ext` becomes absent. -/
def file_meta_from_ffi (meta : Option FCFileMeta) : Option FileMeta := do
  let mr ← meta
  let path ← mr.path
  let name ← mr.name
  let ext := mr.ext.bind fun s => if s.isEmpty then none else some s
  pure ⟨path, name, ext, mr.mtime, mr.size, mr.inode, mr.dev⟩

/-- `fc_should_reindex` (`ffi.rs` lines 79-93), parameterized by the
library-side `should_reindex` (its definition is not part of the FFI
file): invalid meta gives `false`; an inner error gives `true`
(fail-open); otherwise the inner answer is passed through. -/
def fc_should_reindex (inner : FileMeta → Except String Bool)
    (meta : Option FCFileMeta) : Bool :=
  match file_meta_from_ffi meta with
  | none => false
  | some fm =>
    match inner fm with
    | Except.ok b => b
    | Except.error _ => true

/-- C7 is false as stated: `fc_should_reindex` does NOT return `true`
on every error path — handed a NULL meta pointer (an error reported
with an `[ffi]` stderr diagnostic), it returns `false`, here even
though the inner `should_reindex` would answer `true`. -/
theorem C7_null_meta_returns_false :
    fc_should_reindex (fun _ => Except.ok true) none = false := rfl

/-- C7 (amended): `fc_should_reindex` returns `true` whenever the inner
`should_reindex` call fails (fail-open) and passes the inner answer
through on success, but when the meta argument itself is invalid (NULL
pointer, or NULL `path`/`name`) it returns `false`, not `true`. -/
theorem C7_fail_open (inner : FileMeta → Except String Bool)
    (meta : Option FCFileMeta) :
    (file_meta_from_ffi meta = none → fc_should_reindex inner meta = false)
    ∧ (∀ fm e, file_meta_from_ffi meta = some fm → inner fm = Except.error e →
        fc_should_reindex inner meta = true)
    ∧ (∀ fm b, file_meta_from_ffi meta = some fm → inner fm = Except.ok b →
        fc_should_reindex inner meta = b) := by
  refine ⟨?_, ?_, ?_⟩
  · intro h
    unfold fc_should_reindex
    rw [h]
  · intro fm e hfm herr
    unfold fc_should_reindex
    rw [hfm]
    dsimp only
    rw [herr]
  · intro fm b hfm hok
    unfold fc_should_reindex
    rw [hfm]
    dsimp only
    rw [hok]

/-- A concrete decodable meta. -/
def exMetaC7 : FCFileMeta := ⟨some "a.txt", some "a.txt", none, 1, 5, 1, 1⟩

theorem C7_fail_open_witness :
    fc_should_reindex (fun _ => Except.error "index not initialized")
      (some exMetaC7) = true := by
  exact (C7_fail_open (fun _ => Except.error "index not initialized")
    (some exMetaC7)).2.1 ⟨"a.txt", "a.txt", none, 1, 5, 1, 1⟩
    "index not initialized" rfl rfl

/-- An interior NUL byte in a Rust string (exactly when
`CString::new` fails). -/
def hasNul (s : String) : Bool :=
  s.data.any fun c => c == '\x00'

/-- `FCHit` from `ffi.rs` (its two strings already NUL-free). -/
structure FCHit where
  path : String
  name : String
  mtime : Int
  size : Nat
  score : Score
deriving DecidableEq, Repr

/-- The `FCHit` built from a `SearchHit` (`ffi.rs` lines 160-168):
`mtime`/`size` default to 0 when absent. -/
def toFCHit (h : SearchHit) : FCHit :=
  ⟨h.path, h.name, h.modified_at.getD 0, h.size.getD 0, h.score⟩

/-- The marshaling loop of `fc_search` (`ffi.rs` lines 155-174): a hit
whose path or name fails `CString::new` (interior NUL) is skipped with
a diagnostic; the rest are converted in order. -/
def marshalHits (hits : List SearchHit) : List FCHit :=
  hits.filterMap fun h =>
    if hasNul h.path || hasNul h.name then none else some (toFCHit h)

/-- `FCResults` from `ffi.rs`: `hits = none` models a NULL array
pointer. -/
structure FCResults where
  hits : Option (List FCHit)
  count : Int
deriving DecidableEq, Repr

/-- The result-construction tail of `fc_search` (`ffi.rs` lines
137-188) applied to the outcome of `search`: an error or an empty hit
list gives a NULL array with count 0; if every hit is dropped by the
NUL check the result is also NULL with count 0; otherwise the marshaled
array with its length. -/
def fc_search_results (res : Except String (List SearchHit)) : FCResults :=
  match res with
  | Except.error _ => ⟨none, 0⟩
  | Except.ok hits =>
    if hits.isEmpty then ⟨none, 0⟩
    else
      let ffiHits := marshalHits hits
      if ffiHits.isEmpty then ⟨none, 0⟩
      else ⟨some ffiHits, (ffiHits.length : Int)⟩

/-- C8: the array `fc_search` returns contains exactly the hits whose
path and name are free of interior NUL, unchanged and in their original
order (the NUL-carrying ones are omitted), and when all hits are
dropped — or there were none — the result is a NULL pointer with
count 0. -/
theorem filterMap_guard {α β : Type} (p : α → Bool) (f : α → β) :
    ∀ l : List α,
      (l.filterMap fun a => if p a then none else some (f a)) =
        (l.filter fun a => !p a).map f := by
  intro l
  induction l with
  | nil => rfl
  | cons a t ih =>
    by_cases hp : p a = true
    · simp [hp, ih]
    · simp [hp, ih]

theorem C8_interior_nul_drop (hits : List SearchHit) :
    (marshalHits hits =
      (hits.filter fun h => !(hasNul h.path || hasNul h.name)).map toFCHit)
    ∧ (marshalHits hits = [] →
        fc_search_results (Except.ok hits) = ⟨none, 0⟩)
    ∧ (marshalHits hits ≠ [] →
        fc_search_results (Except.ok hits) =
          ⟨some (marshalHits hits), ((marshalHits hits).length : Int)⟩) := by
  refine ⟨?_, ?_, ?_⟩
  · exact filterMap_guard (fun h => hasNul h.path || hasNul h.name) toFCHit hits
  · intro hm
    unfold fc_search_results
    dsimp only
    by_cases he : hits.isEmpty = true
    · rw [if_pos he]
    · rw [if_neg he]
      simp [hm]
  · intro hm
    have he : ¬(hits.isEmpty = true) := by
      intro hc
      apply hm
      rw [List.isEmpty_iff.mp hc]
      rfl
    unfold fc_search_results
    dsimp only
    rw [if_neg he]
    rw [if_neg fun hc => hm (List.isEmpty_iff.mp hc)]

/-- One clean hit followed by one whose path holds an interior NUL. -/
def exHitsC8 : List SearchHit :=
  [⟨"a.txt", "a.txt", Score.val 1, some 1, none⟩,
   ⟨"b\x00.txt", "b.txt", Score.val 1, some 1, none⟩]

theorem C8_interior_nul_drop_witness :
    fc_search_results (Except.ok exHitsC8) =
      ⟨some (marshalHits exHitsC8), ((marshalHits exHitsC8).length : Int)⟩ := by
  exact (C8_interior_nul_drop exHitsC8).2.2 (by decide)

/-- `fc_free_results` (`ffi.rs` lines 191-229).  The argument models
the pointed-to struct (`none` = NULL pointer); the result is the struct
value left behind paired with whether the hit array was freed.  A NULL
or already-zeroed struct frees nothing; otherwise the struct is zeroed
(pointer nulled, count zeroed) and the array freed. -/
def fc_free_results (results : Option FCResults) : Option FCResults × Bool :=
  match results with
  | none => (none, false)
  | some r =>
    if r.hits = none ∨ r.count ≤ 0 then (some ⟨none, 0⟩, false)
    else (some ⟨none, 0⟩, true)

/-- C9: `fc_free_results` is null-safe and idempotent: a NULL pointer
does nothing; a struct with a NULL hits pointer or non-positive count
is only zeroed, freeing nothing; otherwise the array is freed and the
struct left with `hits = NULL`, `count = 0` — so a second call on the
same struct is a no-op that frees nothing. -/
theorem C9_free_results_safe :
    (fc_free_results none = (none, false))
    ∧ (∀ r : FCResults, r.hits = none ∨ r.count ≤ 0 →
        fc_free_results (some r) = (some ⟨none, 0⟩, false))
    ∧ (∀ r : FCResults, r.hits ≠ none → 0 < r.count →
        fc_free_results (some r) = (some ⟨none, 0⟩, true))
    ∧ (∀ r : FCResults,
        fc_free_results ((fc_free_results (some r)).1) =
          (some ⟨none, 0⟩, false)) := by
  refine ⟨rfl, ?_, ?_, ?_⟩
  · intro r h
    unfold fc_free_results
    dsimp only
    rw [if_pos h]
  · intro r h1 h2
    unfold fc_free_results
    dsimp only
    rw [if_neg ?_]
    rintro (h | h)
    · exact h1 h
    · omega
  · intro r
    by_cases hc : r.hits = none ∨ r.count ≤ 0 <;>
      simp [fc_free_results, hc]

/-- A populated results struct: one hit, count 1. -/
def exResultsC9 : FCResults :=
  ⟨some [⟨"a.txt", "a.txt", 1, 1, Score.val 1⟩], 1⟩

theorem C9_free_results_safe_witness :
    fc_free_results (some exResultsC9) = (some ⟨none, 0⟩, true)
    ∧ fc_free_results ((fc_free_results (some exResultsC9)).1) =
        (some ⟨none, 0⟩, false) := by
  refine ⟨?_, ?_⟩
  · exact C9_free_results_safe.2.2.1 exResultsC9 (by decide) (by decide)
  · exact C9_free_results_safe.2.2.2 exResultsC9

end FinderCore
